import Mathlib

/-!
# Verification of the CDS data-feeder pipeline

A shallow embedding of the acquisition-and-reconciliation pipeline of the
`brazillian_cds_datafeeder_v2` repository:

* the numeric and date normalization helpers of `update_cds_investing.py`
  (`_clean_number`, `_parse_change_pct`, `_normalize_investing_table`,
  `parse_table_with_read_html`, `parse_table_with_xpath`, `async_main`),
* the file-based store adapter `CSVDataSource` (`src/database/csv_source.py`),
* the relational store adapter `CDSRepository`
  (`src/database/repositories/cds_repository.py`) together with the ORM
  attribute surface of `CDSRecord` (`src/database/models.py`).

Strings are manipulated as `List Char`; Python `float` values are modelled as
exact rationals (the source arithmetic — divide by 100, sign handling — is
exact on the decimal literals involved); calendar dates are modelled by the
serial number `year*10000 + month*100 + day`, which agrees with Python
`datetime.date` equality and ordering on valid dates.
-/

namespace CdsFeeder

/-! ## String primitives (models of the Python `str` methods used) -/

/-- Model of the Python whitespace class used by `str.strip()` on the inputs
that occur here. -/
def isPySpace (c : Char) : Bool :=
  c = ' ' || c = '\t' || c = '\n' || c = '\r'

/-- Model of Python `str.strip()`. -/
def stripL (cs : List Char) : List Char :=
  ((cs.dropWhile isPySpace).reverse.dropWhile isPySpace).reverse

/-- Model of Python `str.lower()` for the alphabet appearing in the scraped
headers: ASCII plus the accented Portuguese capitals. -/
def pyLowerChar (c : Char) : Char :=
  if c = 'Á' then 'á' else if c = 'Â' then 'â' else if c = 'Ã' then 'ã'
  else if c = 'É' then 'é' else if c = 'Ê' then 'ê'
  else if c = 'Í' then 'í'
  else if c = 'Ó' then 'ó' else if c = 'Ô' then 'ô' else if c = 'Õ' then 'õ'
  else if c = 'Ú' then 'ú' else if c = 'Ç' then 'ç'
  else c.toLower

def pyLowerL (cs : List Char) : List Char := cs.map pyLowerChar

/-- Model of Python `s.replace(a, b)` for a one-character pattern. -/
def replaceChar (a b : Char) (cs : List Char) : List Char :=
  cs.map (fun c => if c = a then b else c)

/-- Model of Python `s.replace(a, "")` for a one-character pattern. -/
def removeChar (a : Char) (cs : List Char) : List Char :=
  cs.filter (fun c => c ≠ a)

def isPrefixL : List Char → List Char → Bool
  | [], _ => true
  | _ :: _, [] => false
  | a :: as, b :: bs => a = b && isPrefixL as bs

/-- Model of the Python substring test `pat in s`. -/
def isInfixL (pat : List Char) : List Char → Bool
  | [] => pat.isEmpty
  | c :: cs => isPrefixL pat (c :: cs) || isInfixL pat cs

def isInfixS (pat s : String) : Bool := isInfixL pat.data s.data

def splitOnChar (a : Char) : List Char → List (List Char)
  | [] => [[]]
  | c :: cs =>
    let r := splitOnChar a cs
    if c = a then [] :: r
    else
      match r with
      | [] => [[c]]
      | h :: t => (c :: h) :: t

def digitsOnly (cs : List Char) : Bool := !cs.isEmpty && cs.all Char.isDigit

def natOfDigits (cs : List Char) : Nat :=
  cs.foldl (fun n c => n * 10 + (c.toNat - 48)) 0

/-! ## Model of Python `float()`

Restricted to the shapes that can reach the two `float` call sites in
`update_cds_investing.py`: an optional sign followed by digits with at most one
decimal point (exponents, `inf`/`nan` words and digit underscores are not
modelled; no input built by the surrounding cleaning code uses them). A string
Python `float()` rejects is mapped to `none` (the `except ValueError` path). -/

def pyFloatCore (cs : List Char) : Option ℚ :=
  match splitOnChar '.' cs with
  | [a] => if digitsOnly a then some (mkRat (Int.ofNat (natOfDigits a)) 1) else none
  | [a, b] =>
    if a.all Char.isDigit && b.all Char.isDigit && !(a.isEmpty && b.isEmpty) then
      some (mkRat (Int.ofNat (natOfDigits a * 10 ^ b.length + natOfDigits b)) (10 ^ b.length))
    else none
  | _ => none

/-- Exact division of a rational by a positive natural number (the `/100`
of `_clean_number`; Python float division is exact on these inputs). -/
def ratDivNat (q : ℚ) (n : Nat) : ℚ := mkRat q.num (q.den * n)

def pyFloatL (cs0 : List Char) : Option ℚ :=
  let cs := stripL cs0
  match cs with
  | '+' :: rest => pyFloatCore rest
  | '-' :: rest => (pyFloatCore rest).map (fun q => -q)
  | _ => pyFloatCore cs

/-! ## `_clean_number` and `_parse_change_pct` (update_cds_investing.py:69-102) -/

/-- The character pipeline of `_clean_number`: on the stripped string,
`replace(".", "")`, then `replace(",", ".")`, then `replace("%", "")`. -/
def cleanTransform (s : String) : List Char :=
  removeChar '%' (replaceChar ',' '.' (removeChar '.' (stripL s.data)))

/-- `_clean_number` (update_cds_investing.py:69-82): strips, rejects the
sentinels `"" / nan / none / null / -`, normalizes the pt-BR number and divides
the parsed value by 100; a failed parse yields `none`. -/
def cleanNumber (s : String) : Option ℚ :=
  let t := stripL s.data
  if t.isEmpty || pyLowerL t = "nan".data || pyLowerL t = "none".data
      || pyLowerL t = "null".data || pyLowerL t = "-".data then
    none
  else
    match pyFloatL (cleanTransform s) with
    | none => none
    | some q => some (ratDivNat q 100)

/-- At one position, the regex `[+-]?\d+(?:\.\d+)?` of `_parse_change_pct`:
greedy digits, then a greedy optional fraction. -/
def matchNumAt (cs : List Char) : Option (List Char) :=
  let core (l : List Char) : Option (List Char) :=
    let ds := l.takeWhile Char.isDigit
    if ds.isEmpty then none
    else
      match l.drop ds.length with
      | '.' :: r2 =>
        let fs := r2.takeWhile Char.isDigit
        if fs.isEmpty then some ds else some (ds ++ '.' :: fs)
      | _ => some ds
  match cs with
  | c :: rest => if c = '+' || c = '-' then (core rest).map (fun m => c :: m) else core cs
  | [] => none

/-- Model of `re.search(r"([+-]?\d+(?:\.\d+)?)", s)`: leftmost match wins. -/
def searchNum : List Char → Option (List Char)
  | [] => none
  | c :: rest =>
    match matchNumAt (c :: rest) with
    | some m => some m
    | none => searchNum rest

/-- The character pipeline of `_parse_change_pct`: strip, `replace(" ", "")`,
`replace("%", "")`, `replace(",", ".")`. -/
def pctTransform (s : String) : List Char :=
  replaceChar ',' '.' (removeChar '%' (removeChar ' ' (stripL s.data)))

/-- `_parse_change_pct` (update_cds_investing.py:84-102): direct `float` parse
of the cleaned string, with a regex fallback extracting the first numeric
substring; failure yields `none`. -/
def parseChangePct (s : String) : Option ℚ :=
  match pyFloatL (pctTransform s) with
  | some q => some q
  | none =>
    match searchNum (pctTransform s) with
    | some m => pyFloatL m
    | none => none

/-! ## Dates

Calendar dates are encoded by the serial `year*10000 + month*100 + day`;
on valid dates this agrees with `datetime.date` equality and ordering. -/

def isLeapYear (y : Nat) : Bool := (y % 4 = 0 && y % 100 ≠ 0) || y % 400 = 0

def daysInMonth (y m : Nat) : Nat :=
  if m = 2 then (if isLeapYear y then 29 else 28)
  else if m = 4 || m = 6 || m = 9 || m = 11 then 30
  else 31

def mkValidDate (y m d : Nat) : Option Nat :=
  if 1 ≤ m && m ≤ 12 && 1 ≤ d && d ≤ daysInMonth y m && 1 ≤ y && y ≤ 9999 then
    some (y * 10000 + m * 100 + d)
  else none

/-- Day-first three-part date (`dd.mm.yyyy` / `dd/mm/yyyy`); like `dateutil`
with `dayfirst=True`, an impossible day-first reading falls back to
month-first. Modelled subset of `pd.to_datetime(..., dayfirst=True)`:
four-digit years only. -/
def parseDMY (parts : List (List Char)) : Option Nat :=
  match parts with
  | [a, b, c] =>
    if digitsOnly a && digitsOnly b && digitsOnly c && c.length = 4 then
      match mkValidDate (natOfDigits c) (natOfDigits b) (natOfDigits a) with
      | some d => some d
      | none => mkValidDate (natOfDigits c) (natOfDigits a) (natOfDigits b)
    else none
  | _ => none

/-- ISO `yyyy-mm-dd`. -/
def parseYMD (parts : List (List Char)) : Option Nat :=
  match parts with
  | [a, b, c] =>
    if digitsOnly a && digitsOnly b && digitsOnly c && a.length = 4 then
      mkValidDate (natOfDigits a) (natOfDigits b) (natOfDigits c)
    else none
  | _ => none

/-- Model of `pd.to_datetime(x, errors="coerce", dayfirst=True)` on the date
strings this page produces: `dd.mm.yyyy`, `dd/mm/yyyy` and ISO `yyyy-mm-dd`;
everything else coerces to NaT (`none`). -/
def parsePDate (s : String) : Option Nat :=
  let cs := stripL s.data
  match parseDMY (splitOnChar '.' cs) with
  | some d => some d
  | none =>
    match parseDMY (splitOnChar '/' cs) with
    | some d => some d
    | none => parseYMD (splitOnChar '-' cs)

/-! ## Raw tables and the normalizer (`_normalize_investing_table`) -/

/-- A raw extracted table: header texts and body rows of cell texts, as the
markup presents them. Strategy B consumes these raw texts directly; strategy A
consumes the frame `pd.read_html` builds from them, in which the parser's
default `thousands=","` removal and column dtype conversion have already
rewritten numeric-looking cells (see `readHtmlTable`). -/
structure RawTable where
  headers : List String
  rows : List (List String)
deriving DecidableEq, Repr

/-- One canonical-schema row produced by the normalizer. A field is `none`
when its column is absent from the input or its cell failed to parse.
(The Python keyword-clashing column name `open` is rendered `open_`.) -/
structure NormRow where
  date : Option Nat
  open_ : Option ℚ
  high : Option ℚ
  low : Option ℚ
  close : Option ℚ
  change_pct : Option ℚ
deriving DecidableEq, Repr

/-- The header-to-canonical-name mapping of `_normalize_investing_table`
(update_cds_investing.py:156-182): lower-case, then the `elif` substring
chain; unmapped headers keep their lowered name. -/
def mapHeader (h : String) : String :=
  let cl : String := ⟨pyLowerL (stripL h.data)⟩
  if isInfixS "data" cl || isInfixS "date" cl then "date"
  else if isInfixS "abert" cl || isInfixS "open" cl then "open"
  else if isInfixS "máxima" cl || isInfixS "maxima" cl || isInfixS "high" cl then "high"
  else if isInfixS "mínima" cl || isInfixS "minima" cl || isInfixS "low" cl then "low"
  else if isInfixS "último" cl || isInfixS "ultimo" cl || isInfixS "close" cl
      || isInfixS "price" cl || isInfixS "fech" cl then "close"
  else if isInfixS "var" cl && isInfixS "%" cl then "change_pct"
  else cl

def expectedCols : List String := ["date", "open", "high", "low", "close", "change_pct"]

def mappedCols (t : RawTable) : List String := t.headers.map mapHeader

/-- Two input columns mapped to the same canonical name make the pandas
column operations on the renamed frame raise; modelled as a failure. -/
def dupMappedCols (t : RawTable) : Bool :=
  expectedCols.any (fun c => 2 ≤ ((mappedCols t).filter (fun x => x == c)).length)

def hasDateCol (t : RawTable) : Bool := (mappedCols t).contains "date"

def hasCloseCol (t : RawTable) : Bool := (mappedCols t).contains "close"

/-- The cell of `row` sitting under the canonical column `c`, if the table has
such a column. -/
def rawCell (t : RawTable) (row : List String) (c : String) : Option String :=
  ((mappedCols t).findIdx? (fun x => x == c)).map (fun i => row.getD i "")

def parseRow (t : RawTable) (row : List String) : NormRow where
  date := (rawCell t row "date").bind parsePDate
  open_ := (rawCell t row "open").bind cleanNumber
  high := (rawCell t row "high").bind cleanNumber
  low := (rawCell t row "low").bind cleanNumber
  close := (rawCell t row "close").bind cleanNumber
  change_pct := (rawCell t row "change_pct").bind parseChangePct

/-- Sort key of a normalized row; rows reaching the sort always carry a date. -/
def normKey (r : NormRow) : Nat := r.date.getD 0

def insertAsc {α : Type} (key : α → Nat) (x : α) : List α → List α
  | [] => [x]
  | y :: ys => if key x ≤ key y then x :: y :: ys else y :: insertAsc key x ys

/-- Model of an ascending `sort_values`; only sortedness and the underlying
multiset matter to the properties proved here. -/
def sortByAsc {α : Type} (key : α → Nat) (l : List α) : List α :=
  l.foldr (insertAsc key) []

def insertDesc {α : Type} (key : α → Nat) (x : α) : List α → List α
  | [] => [x]
  | y :: ys => if key y ≤ key x then x :: y :: ys else y :: insertDesc key x ys

def sortByDesc {α : Type} (key : α → Nat) (l : List α) : List α :=
  l.foldr (insertDesc key) []

/-- The row pipeline of `_normalize_investing_table` (lines 189-214): parse
every mapped column of every row, drop rows without a parsed date, drop rows
without a parsed close when a close column exists, sort ascending by date. -/
def normalizeRows (t : RawTable) : List NormRow :=
  let rows := t.rows.map (parseRow t)
  let rows1 := rows.filter (fun r => r.date.isSome)
  let rows2 := if hasCloseCol t then rows1.filter (fun r => r.close.isSome) else rows1
  sortByAsc normKey rows2

/-- `_normalize_investing_table` (update_cds_investing.py:156-214). `none`
models the function raising: the unconditional `df["date"]` access (line 191)
raises `KeyError` when no input column mapped to `date`, and duplicate mapped
canonical columns make the column assignments raise. -/
def normalizeTable (t : RawTable) : Option (List NormRow) :=
  if dupMappedCols t then none
  else if !hasDateCol t then none
  else some (normalizeRows t)

/-! ## The generic parser's numeric coercion

`pd.read_html` runs with its defaults `thousands=","` and `decimal="."`
(update_cds_investing.py:113), so before strategy A's frame reaches the
candidate filter and the normalizer, the pandas python parser has
post-processed the body cells: a cell containing the thousands separator
whose stripped text consists only of the characters of the parser's `nonnum`
class (digits, `-`, `^`, the decimal point and the thousands separator) has
every comma removed, and afterwards each column all of whose cells parse as
integers (respectively floats) is converted to int64 (float64), the cell
becoming the `str()` of its number once the normalizer stringifies it.
Header texts are never touched. Not modelled: `nan`/`inf` words, exponents
and empty-cell-to-NaN conversion, which no input of interest here produces. -/

/-- The pandas python parser's `nonnum` character class for
`thousands=","`, `decimal="."` (the literal `^` comes from the way pandas
builds the regex). -/
def thousandsAllowedChar (c : Char) : Bool :=
  c.isDigit || c = '-' || c = '^' || c = '.' || c = ','

/-- Per-cell thousands-separator removal: commas are stripped from a cell
that contains one and whose stripped text stays inside the `nonnum` class. -/
def thousandsStrip (cs : List Char) : List Char :=
  if cs.contains ',' && (stripL cs).all thousandsAllowedChar then removeChar ',' cs
  else cs

/-- An integer-shaped cell: optional sign, then digits. -/
def isIntCell (cs0 : List Char) : Bool :=
  let cs := stripL cs0
  match cs with
  | '+' :: rest => digitsOnly rest
  | '-' :: rest => digitsOnly rest
  | _ => digitsOnly cs

def intReprCore (l : List Char) : List Char :=
  let l2 := l.dropWhile (fun c => c = '0')
  if l2.isEmpty then ['0'] else l2

/-- `str(int(s))` for an integer-shaped cell. -/
def intReprL (cs0 : List Char) : List Char :=
  let cs := stripL cs0
  match cs with
  | '+' :: rest => intReprCore rest
  | '-' :: rest => if intReprCore rest = ['0'] then ['0'] else '-' :: intReprCore rest
  | _ => intReprCore cs

def floatReprCore (cs : List Char) : List Char :=
  let parts := splitOnChar '.' cs
  let ip := intReprCore (parts.getD 0 [])
  let fp := ((parts.getD 1 []).reverse.dropWhile (fun c => c = '0')).reverse
  ip ++ '.' :: (if fp.isEmpty then ['0'] else fp)

/-- `str(float(s))` for a float-shaped decimal cell within double precision's
faithful range, where Python's shortest repr is the zero-trimmed decimal. -/
def floatReprL (cs0 : List Char) : List Char :=
  let cs := stripL cs0
  match cs with
  | '+' :: rest => floatReprCore rest
  | '-' :: rest => '-' :: floatReprCore rest
  | _ => floatReprCore cs

/-- A column converts to int64 when every cell is integer-shaped. -/
def colIsInt (cells : List String) : Bool :=
  !cells.isEmpty && cells.all (fun s => isIntCell s.data)

/-- Failing int64, a column converts to float64 when every cell is
float-shaped. -/
def colIsFloat (cells : List String) : Bool :=
  !cells.isEmpty && cells.all (fun s => (pyFloatL s.data).isSome)

/-- One cell after column dtype conversion: int64 first, then float64, else
the cell stays a string. -/
def convertCell (ci cf : Bool) (s : String) : String :=
  if ci then ⟨intReprL s.data⟩ else if cf then ⟨floatReprL s.data⟩ else s

/-- The body rows of the frame `pd.read_html` yields for one raw table:
per-cell thousands removal, then column-wise dtype conversion. -/
def readHtmlRows (t : RawTable) : List (List String) :=
  let rows1 := t.rows.map (fun r => r.map (fun c => (⟨thousandsStrip c.data⟩ : String)))
  rows1.map (fun r =>
    (List.range t.headers.length).map (fun i =>
      convertCell (colIsInt (rows1.map (fun r2 => r2.getD i "")))
        (colIsFloat (rows1.map (fun r2 => r2.getD i ""))) (r.getD i "")))

/-- The frame strategy A hands on: header texts unchanged, body cells after
the parser's numeric coercion. -/
def readHtmlTable (t : RawTable) : RawTable := ⟨t.headers, readHtmlRows t⟩

/-! ## Strategy A: `parse_table_with_read_html` (update_cds_investing.py:110-130) -/

/-- The candidate filter of `parse_table_with_read_html` (lines 117-123): the
lowered header texts must contain `"data"` somewhere, and one of `"último"`,
`"ultimo"`, `"close"` somewhere. (Note: `"date"` and `"price"` are *not*
among the selection terms; they occur only in the normalizer's mapping.) -/
def codeCandidate (t : RawTable) : Bool :=
  let cols := t.headers.map (fun c => (⟨pyLowerL c.data⟩ : String))
  cols.any (fun c => isInfixS "data" c) &&
    (cols.any (fun c => isInfixS "último" c) || cols.any (fun c => isInfixS "ultimo" c)
      || cols.any (fun c => isInfixS "close" c))

/-- Outcome of strategy A: `noTable` models returning `None` (no tables in the
document, or no candidate); `raised` models an uncaught exception escaping
from `_normalize_investing_table`. -/
inductive ReadHtmlResult
  | noTable
  | raised
  | table (rows : List NormRow)
deriving DecidableEq, Repr

/-- `parse_table_with_read_html`: parse every table (with the generic
parser's numeric coercion applied to the cells), collect candidate tables in
document order, take the first, normalize it. -/
def parseTableWithReadHtml (tables : List RawTable) : ReadHtmlResult :=
  match (tables.map readHtmlTable).filter codeCandidate with
  | [] => .noTable
  | t :: _ =>
    match normalizeTable t with
    | none => .raised
    | some rows => .table rows

/-! ## Strategy B: `parse_table_with_xpath` (update_cds_investing.py:132-154) -/

/-- A fetched document as seen by the two strategies: the `<table>` elements a
generic table parser finds, and the element located by the fixed structural
path `TABLE_XPATH`, when that path resolves to a table. -/
structure HtmlDocument where
  tables : List RawTable
  xpathTable : Option RawTable
deriving DecidableEq, Repr

/-- `parse_table_with_xpath`: locate the table at the fixed path, join and
strip the cell texts, keep non-empty rows, build a frame and normalize; any
exception (no table at the path, empty headers or body, ragged rows, a
normalization error) is caught and yields `None`. -/
def parseTableWithXpath (doc : HtmlDocument) : Option (List NormRow) :=
  match doc.xpathTable with
  | none => none
  | some t =>
    let headers := t.headers.map (fun h => (⟨stripL h.data⟩ : String))
    let rows := (t.rows.map (fun r => r.map (fun c => (⟨stripL c.data⟩ : String)))).filter
      (fun r => !r.isEmpty)
    if headers.isEmpty || rows.isEmpty then none
    else if rows.any (fun r => r.length ≠ headers.length) then none
    else normalizeTable ⟨headers, rows⟩

/-! ## Observations and the file-based store adapter (`CSVDataSource`) -/

/-- One persisted Observation record (the canonical six-column row shape). The
`date` field is the serial-encoded calendar date; optional numeric fields are
`none` where the source value was null. -/
structure Obs where
  date : Nat
  open_ : Option ℚ
  high : Option ℚ
  low : Option ℚ
  close : Option ℚ
  change_pct : Option ℚ
deriving DecidableEq, Repr

/-- Insert/update counters returned by the bulk operations. -/
structure Counts where
  inserted : Nat
  updated : Nat
  skipped : Nat
deriving DecidableEq, Repr

/-- The state of a `CSVDataSource`: the in-memory frame `mem` (`self._df`) and
the on-disk file contents (`none` when the file does not exist). -/
structure CsvState where
  mem : List Obs
  file : Option (List Obs)
deriving DecidableEq, Repr

/-- `CSVDataSource._save_csv` (csv_source.py:56-73): when the in-memory frame
is empty the method returns without touching the file; otherwise the frame is
written sorted descending by date. -/
def saveCsvFile (mem : List Obs) (file : Option (List Obs)) : Option (List Obs) :=
  if mem.isEmpty then file else some (sortByDesc (fun r => r.date) mem)

/-- `CSVDataSource.get_by_date` (csv_source.py:75-92): first matching row. -/
def csvGetByDate (st : CsvState) (d : Nat) : Option Obs :=
  st.mem.find? (fun r => r.date == d)

/-- Replace the first record having date `d` (the pandas
`df.loc[existing_idx[0], key] = value` loop writes every incoming field over
that row). -/
def replaceFirst (d : Nat) (r : Obs) : List Obs → List Obs
  | [] => []
  | x :: xs => if x.date == d then r :: xs else x :: replaceFirst d r xs

/-- The in-memory effect of `CSVDataSource.upsert_record`
(csv_source.py:144-196): update the existing row in place, or append the new
row and re-sort descending, or create a fresh one-row frame. -/
def csvUpsertMem (mem : List Obs) (r : Obs) : List Obs :=
  if mem.isEmpty then [r]
  else if mem.any (fun x => x.date == r.date) then replaceFirst r.date r mem
  else sortByDesc (fun x => x.date) (mem ++ [r])

/-- `CSVDataSource.upsert_record` followed by its `_save_csv` call. The
`required_fields` check only tests key presence, which the record structure
guarantees, so it never fails here; note it does not test for null values. -/
def csvUpsertRecord (st : CsvState) (r : Obs) : CsvState :=
  let mem := csvUpsertMem st.mem r
  ⟨mem, saveCsvFile mem st.file⟩

/-- One iteration of the `CSVDataSource.bulk_insert` loop
(csv_source.py:222-237): skip / update / insert one record depending on
`get_by_date` and `skip_duplicates`, counting the case taken. -/
def csvBulkStep (skipDuplicates : Bool) (acc : CsvState × Counts) (r : Obs) :
    CsvState × Counts :=
  match csvGetByDate acc.1 r.date with
  | some _ =>
    if skipDuplicates then (acc.1, { acc.2 with skipped := acc.2.skipped + 1 })
    else (csvUpsertRecord acc.1 r, { acc.2 with updated := acc.2.updated + 1 })
  | none => (csvUpsertRecord acc.1 r, { acc.2 with inserted := acc.2.inserted + 1 })

/-- `CSVDataSource.bulk_insert` (csv_source.py:198-244). -/
def csvBulkInsert (st : CsvState) (records : List Obs) (skipDuplicates : Bool) :
    CsvState × Counts :=
  records.foldl (csvBulkStep skipDuplicates) (st, ⟨0, 0, 0⟩)

def boundsOk (s e : Option Nat) (d : Nat) : Bool :=
  (match s with | none => true | some a => a ≤ d) &&
    (match e with | none => true | some b => d ≤ b)

/-- `CSVDataSource.get_date_range` (csv_source.py:111-142): filter by the
optional inclusive bounds, then sort by date in the requested order
(anything other than `"asc"` sorts descending). -/
def csvGetDateRange (st : CsvState) (s e : Option Nat) (orderBy : String) : List Obs :=
  if st.mem.isEmpty then []
  else
    let f := st.mem.filter (fun r => boundsOk s e r.date)
    if (⟨pyLowerL orderBy.data⟩ : String) == "asc" then sortByAsc (fun r => r.date) f
    else sortByDesc (fun r => r.date) f

/-- `CSVDataSource.count_records` (csv_source.py:268-277). -/
def csvCountRecords (st : CsvState) : Nat := st.mem.length

/-- Result shape of `get_statistics`. -/
structure Stats where
  total_records : Nat
  earliest_date : Option Nat
  latest_date : Option Nat
  sources : List String
deriving DecidableEq, Repr

/-- `CSVDataSource.get_statistics` (csv_source.py:246-266). -/
def csvGetStatistics (st : CsvState) : Stats :=
  match st.mem with
  | [] => ⟨0, none, none, []⟩
  | r :: rs =>
    ⟨st.mem.length,
     some (rs.foldl (fun m x => Nat.min m x.date) r.date),
     some (rs.foldl (fun m x => Nat.max m x.date) r.date),
     ["csv"]⟩

/-- `CSVDataSource.delete_by_date_range` (csv_source.py:279-308): keep the
records outside the inclusive range; `_save_csv` runs only when something was
deleted. Returns the new state and the deleted count. -/
def csvDeleteByDateRange (st : CsvState) (s e : Nat) : CsvState × Nat :=
  if st.mem.isEmpty then (st, 0)
  else
    let kept := st.mem.filter (fun r => r.date < s || e < r.date)
    let deleted := st.mem.length - kept.length
    if 0 < deleted then (⟨kept, saveCsvFile kept st.file⟩, deleted)
    else (⟨kept, st.file⟩, deleted)

/-! ## The relational store adapter (`CDSRepository` over `CDSRecord`) -/

/-- Result of a database call: a value, or a raised exception's message. -/
inductive DbResult (α : Type)
  | ok (val : α)
  | err (msg : String)
deriving DecidableEq, Repr

def DbResult.map {α β : Type} (f : α → β) : DbResult α → DbResult β
  | .ok v => .ok (f v)
  | .err m => .err m

/-- The Python attribute names the `CDSRecord` ORM class exposes
(models.py:26-69). The date column is named `"date"` in SQL but its Python
attribute is `record_date`; there is no attribute called `date`. -/
def cdsRecordAttrNames : List String :=
  ["id", "record_date", "open", "high", "low", "close", "change_pct",
   "created_at", "updated_at", "source"]

/-- Attribute lookup on the `CDSRecord` class; a missing name raises
`AttributeError`. -/
def ormAttr (name : String) : DbResult String :=
  if cdsRecordAttrNames.contains name then DbResult.ok name
  else DbResult.err ("AttributeError: type object CDSRecord has no attribute " ++ name)

/-- The relational store state: the rows of `cds_records`. The `date` column
carries a unique constraint; `close` is NOT NULL (models.py:40-46). -/
def integrityErrMsg : String :=
  "IntegrityError: null value in column close violates not-null constraint"

/-- `CDSRepository.get_by_date` (cds_repository.py:29-41). -/
def repoGetByDate (db : List Obs) (d : Nat) : Option Obs :=
  db.find? (fun r => r.date == d)

/-- One `INSERT ... ON CONFLICT (date) DO UPDATE` statement
(cds_repository.py:121-133 and 179-191): rejected when `close` is null (the
column is NOT NULL for both the insert and the update branch), otherwise the
conflicting row is overwritten or the new row appended. -/
def pgUpsert (db : List Obs) (r : Obs) : DbResult (List Obs) :=
  if r.close.isNone then DbResult.err integrityErrMsg
  else if db.any (fun x => x.date == r.date) then DbResult.ok (replaceFirst r.date r db)
  else DbResult.ok (db ++ [r])

/-- The multi-row `INSERT ... ON CONFLICT DO NOTHING` of the
`skip_duplicates=True` branch (cds_repository.py:169-175): rows are processed
in order, a date conflict (with the table or an earlier row of the same
statement) skips the row, and a null `close` on an actually-inserted row
aborts the statement. Returns the new table and the statement rowcount. -/
def pgInsertDoNothing (db : List Obs) : List Obs → DbResult (List Obs × Nat)
  | [] => DbResult.ok (db, 0)
  | r :: rs =>
    if db.any (fun x => x.date == r.date) then pgInsertDoNothing db rs
    else if r.close.isNone then DbResult.err integrityErrMsg
    else (pgInsertDoNothing (db ++ [r]) rs).map (fun p => (p.1, p.2 + 1))

/-- The per-row upsert loop of the `skip_duplicates=False` branch
(cds_repository.py:176-197). Each executed upsert has rowcount 1, and the
code increments `inserted` whenever `rowcount > 0`, i.e. on every row —
updates are never counted as `updated`. -/
def repoUpsertLoop (db : List Obs) (n : Nat) : List Obs → DbResult (List Obs × Nat)
  | [] => DbResult.ok (db, n)
  | r :: rs =>
    match pgUpsert db r with
    | DbResult.err m => DbResult.err m
    | DbResult.ok db2 => repoUpsertLoop db2 (n + 1) rs

/-- `CDSRepository.bulk_insert` (cds_repository.py:142-205). The commit
happens once after the loop, so a failed statement leaves the table unchanged
(the surrounding transaction is rolled back). -/
def repoBulkInsert (db : List Obs) (records : List Obs) (skipDuplicates : Bool) :
    DbResult (List Obs × Counts) :=
  if records.isEmpty then DbResult.ok (db, ⟨0, 0, 0⟩)
  else if skipDuplicates then
    (pgInsertDoNothing db records).map
      (fun p => (p.1, ⟨p.2, 0, records.length - p.2⟩))
  else
    (repoUpsertLoop db 0 records).map (fun p => (p.1, ⟨p.2, 0, 0⟩))

/-- `CDSRepository.get_date_range` (cds_repository.py:57-92): the filter
conditions use `CDSRecord.record_date`, but the `order_by` on lines 87/89
reads `CDSRecord.date` — an attribute the ORM class does not have — so the
call raises `AttributeError` before the query is executed, on either order. -/
def repoGetDateRange (db : List Obs) (s e : Option Nat) (orderBy : String) :
    DbResult (List Obs) :=
  match ormAttr "date" with
  | DbResult.err m => DbResult.err m
  | DbResult.ok _ =>
    let f := db.filter (fun r => boundsOk s e r.date)
    DbResult.ok
      (if (⟨pyLowerL orderBy.data⟩ : String) == "asc" then sortByAsc (fun r => r.date) f
       else sortByDesc (fun r => r.date) f)

/-- `CDSRepository.delete_by_date_range` (cds_repository.py:310-336). -/
def repoDeleteByDateRange (db : List Obs) (s e : Nat) : List Obs × Nat :=
  let kept := db.filter (fun r => !(s ≤ r.date && r.date ≤ e))
  (kept, db.length - kept.length)

/-! ## RunLog entries written by one pipeline run (`async_main`) -/

/-- One `DataUpdateLog` row (models.py:97-127) as written by
`CDSRepository.log_update`. -/
structure RunLogEntry where
  status : String
  records_fetched : Nat
  records_inserted : Nat
  records_updated : Nat
  error_message : Option String
  source : String
  trigger : String
deriving DecidableEq, Repr

/-- Outcome of the fetch-extract-normalize phase of `async_main`
(update_cds_investing.py:370-375): a normalized row set, or any exception
from `fetch_investing_cds` (network failure, extraction failure, zero usable
tables). -/
inductive FetchResult
  | ok (rows : List Obs)
  | fail (msg : String)
deriving DecidableEq, Repr

/-- Where, if anywhere, the `try` block of `save_to_database`
(update_cds_investing.py:386-425) raises. The success RunLog is committed by
`repo.log_update("success", ...)` at line 407, but the block continues after
it — `logger.success`, then `repo.get_statistics()` at line 421 — so a
failure can strike either before or after the success entry is durable. -/
inductive DbStorageOutcome
  | noFailure
  | failBeforeSuccessLog (msg : String)
  | failAfterSuccessLog (msg : String)
deriving DecidableEq, Repr

/-- The RunLog entries written by `save_to_database`
(update_cds_investing.py:384-440). A failure anywhere in the `try` block
lands in the one `except` handler (lines 426-440), which writes a
best-effort `error` entry in a fresh session (itself swallowed when
`errLogOk` is false). A failure before the success log commits therefore
yields at most the error entry; a failure after it (for example
`get_statistics` raising at line 421) leaves the committed `success` entry
in place and appends the `error` entry after it. -/
def saveToDatabaseLogs (nFetched : Nat) (c : Counts) (outcome : DbStorageOutcome)
    (errLogOk : Bool) : List RunLogEntry :=
  match outcome with
  | .noFailure =>
    [⟨"success", nFetched, c.inserted, c.updated, none, "investing.com", "manual"⟩]
  | .failBeforeSuccessLog m =>
    if errLogOk then [⟨"error", nFetched, 0, 0, some m, "investing.com", "manual"⟩]
    else []
  | .failAfterSuccessLog m =>
    ⟨"success", nFetched, c.inserted, c.updated, none, "investing.com", "manual"⟩ ::
      (if errLogOk then [⟨"error", nFetched, 0, 0, some m, "investing.com", "manual"⟩]
       else [])

/-- `save_to_csv` (update_cds_investing.py:442-477) writes no RunLog entry at
all: `CSVDataSource` has no log operation and the function only emits loguru
console messages. -/
def saveToCsvLogs (_nFetched : Nat) : List RunLogEntry := []

/-- The RunLog entries written by one whole `async_main` run
(update_cds_investing.py:357-382): a fetch/extraction failure logs to the
console and returns without any RunLog; otherwise the storage phase runs in
database or CSV mode. -/
def asyncMainRunLogs (useDatabase : Bool) (fr : FetchResult) (c : Counts)
    (outcome : DbStorageOutcome) (errLogOk : Bool) : List RunLogEntry :=
  match fr with
  | .fail _ => []
  | .ok rows =>
    if useDatabase then saveToDatabaseLogs rows.length c outcome errLogOk
    else saveToCsvLogs rows.length

/-! ## Store invariants (spec §3: at most one Observation per date, `close`
never null once persisted) -/

/-- At most one record per date. -/
def UniqueDates (l : List Obs) : Prop := (l.map Obs.date).Nodup

/-- Every persisted record carries a close value. -/
def ClosesSome (l : List Obs) : Prop := ∀ r ∈ l, r.close.isSome = true

/-- The uniqueness invariant over a whole `CSVDataSource` state: it holds for
the in-memory frame and for whatever the on-disk file holds. -/
def CsvUnique (st : CsvState) : Prop :=
  UniqueDates st.mem ∧ ∀ f, st.file = some f → UniqueDates f

/-- The close-not-null invariant over a whole `CSVDataSource` state. -/
def CsvCloses (st : CsvState) : Prop :=
  ClosesSome st.mem ∧ ∀ f, st.file = some f → ClosesSome f

/-- Modelled from the spec: the table-selection predicate as §4.2 words it —
case-insensitive substring match of the header row against "data"/"date" for
the date column and "último"/"ultimo"/"close"/"price" for the close column.
Kept separate from `codeCandidate` so the two can be compared. -/
def claimedCandidate (t : RawTable) : Bool :=
  let cols := t.headers.map (fun c => (⟨pyLowerL c.data⟩ : String))
  cols.any (fun c => isInfixS "data" c || isInfixS "date" c) &&
    cols.any (fun c => isInfixS "último" c || isInfixS "ultimo" c
      || isInfixS "close" c || isInfixS "price" c)

/-- The message of the `AttributeError` raised by
`CDSRepository.get_date_range`. -/
def attrErrorMsg : String :=
  "AttributeError: type object CDSRecord has no attribute date"

/-! ## Concrete values used in witnesses and counterexamples -/

/-- A pt-BR table as the target page renders it. -/
def tblPT : RawTable :=
  ⟨["Data", "Último"], [["19.11.2025", "1.234,56"], ["18.11.2025", "1.230,00"]]⟩

/-- An English-headed table: usable by the normalizer, but invisible to the
candidate filter of `parse_table_with_read_html`. -/
def tblDP : RawTable := ⟨["Date", "Price"], [["19.11.2025", "1,23"]]⟩

/-- The normalized rows of `tblPT`. -/
def rowsPT : List NormRow :=
  [⟨some 20251118, none, none, none, some (mkRat 123000 10000), none⟩,
   ⟨some 20251119, none, none, none, some (mkRat 123456 10000), none⟩]

/-- `tblPT` as strategy A sees it: the generic parser strips the grouping
commas (`"1.234,56"` → `"1.23456"`), converts the close column to float64
and renders it back (`"1.23000"` → `"1.23"`), so normalization yields close
values a hundredfold off the fallback strategy's. -/
def rowsPTParsed : List NormRow :=
  [⟨some 20251118, none, none, none, some (mkRat 123 100), none⟩,
   ⟨some 20251119, none, none, none, some (mkRat 123456 100), none⟩]

/-- A one-row pt-BR table whose close cell `"376,25"` is numerically coerced
by the generic parser (to the integer `37625`). -/
def tblBR : RawTable := ⟨["Data", "Último"], [["19.11.2025", "376,25"]]⟩

/-- A table whose cells the generic parser's coercion leaves unchanged: the
close cells are already zero-trimmed dot-decimal strings, which the float64
round-trip renders back verbatim. -/
def tblUS : RawTable :=
  ⟨["Data", "Último"], [["19.11.2025", "376.25"], ["18.11.2025", "380.1"]]⟩

/-- The normalized rows of `tblUS` (identical for both strategies). -/
def rowsUS : List NormRow :=
  [⟨some 20251118, none, none, none, some (mkRat 3801 100), none⟩,
   ⟨some 20251119, none, none, none, some (mkRat 37625 100), none⟩]

def recA : Obs := ⟨20251119, none, none, none, some (mkRat 123456 10000), none⟩

def recB : Obs := ⟨20251118, none, none, none, some (mkRat 123000 10000), none⟩

/-- `recA` with a corrected close value. -/
def recA2 : Obs := ⟨20251119, none, none, none, some (mkRat 123900 10000), none⟩

/-- A record whose `close` is null; every key is present, so it passes the
`required_fields` check of `upsert_record`. -/
def recNullClose : Obs := ⟨20250101, none, none, none, none, none⟩

end CdsFeeder


namespace CdsFeeder

/-! ## Sorting lemmas -/

theorem insertAsc_perm {α : Type} (key : α → Nat) (x : α) :
    ∀ l : List α, (insertAsc key x l).Perm (x :: l)
  | [] => List.Perm.refl _
  | y :: ys => by
    by_cases h : key x ≤ key y
    · simp only [insertAsc, if_pos h]
      exact List.Perm.refl _
    · simp only [insertAsc, if_neg h]
      exact (List.Perm.cons y (insertAsc_perm key x ys)).trans (List.Perm.swap x y ys)

theorem sortByAsc_perm {α : Type} (key : α → Nat) :
    ∀ l : List α, (sortByAsc key l).Perm l
  | [] => List.Perm.refl _
  | x :: xs => by
    show (insertAsc key x (sortByAsc key xs)).Perm (x :: xs)
    exact (insertAsc_perm key x _).trans (List.Perm.cons x (sortByAsc_perm key xs))

theorem mem_sortByAsc {α : Type} (key : α → Nat) (l : List α) (a : α) :
    a ∈ sortByAsc key l ↔ a ∈ l :=
  (sortByAsc_perm key l).mem_iff

theorem pairwise_insertAsc {α : Type} (key : α → Nat) (x : α) :
    ∀ {l : List α}, l.Pairwise (fun a b => key a ≤ key b) →
      (insertAsc key x l).Pairwise (fun a b => key a ≤ key b)
  | [], _ => by simp [insertAsc]
  | y :: ys, h => by
    rcases List.pairwise_cons.mp h with ⟨hy, hys⟩
    by_cases hxy : key x ≤ key y
    · simp only [insertAsc, if_pos hxy]
      refine List.pairwise_cons.mpr ⟨?_, h⟩
      intro b hb
      rcases List.mem_cons.mp hb with rfl | hb
      · exact hxy
      · exact le_trans hxy (hy b hb)
    · simp only [insertAsc, if_neg hxy]
      refine List.pairwise_cons.mpr ⟨?_, pairwise_insertAsc key x hys⟩
      intro b hb
      rcases List.mem_cons.mp ((insertAsc_perm key x ys).mem_iff.mp hb) with rfl | hb
      · exact le_of_not_le hxy
      · exact hy b hb

theorem pairwise_sortByAsc {α : Type} (key : α → Nat) :
    ∀ l : List α, (sortByAsc key l).Pairwise (fun a b => key a ≤ key b)
  | [] => List.Pairwise.nil
  | x :: xs => by
    show (insertAsc key x (sortByAsc key xs)).Pairwise (fun a b => key a ≤ key b)
    exact pairwise_insertAsc key x (pairwise_sortByAsc key xs)

theorem insertDesc_perm {α : Type} (key : α → Nat) (x : α) :
    ∀ l : List α, (insertDesc key x l).Perm (x :: l)
  | [] => List.Perm.refl _
  | y :: ys => by
    by_cases h : key y ≤ key x
    · simp only [insertDesc, if_pos h]
      exact List.Perm.refl _
    · simp only [insertDesc, if_neg h]
      exact (List.Perm.cons y (insertDesc_perm key x ys)).trans (List.Perm.swap x y ys)

theorem sortByDesc_perm {α : Type} (key : α → Nat) :
    ∀ l : List α, (sortByDesc key l).Perm l
  | [] => List.Perm.refl _
  | x :: xs => by
    show (insertDesc key x (sortByDesc key xs)).Perm (x :: xs)
    exact (insertDesc_perm key x _).trans (List.Perm.cons x (sortByDesc_perm key xs))

theorem mem_sortByDesc {α : Type} (key : α → Nat) (l : List α) (a : α) :
    a ∈ sortByDesc key l ↔ a ∈ l :=
  (sortByDesc_perm key l).mem_iff

theorem pairwise_insertDesc {α : Type} (key : α → Nat) (x : α) :
    ∀ {l : List α}, l.Pairwise (fun a b => key b ≤ key a) →
      (insertDesc key x l).Pairwise (fun a b => key b ≤ key a)
  | [], _ => by simp [insertDesc]
  | y :: ys, h => by
    rcases List.pairwise_cons.mp h with ⟨hy, hys⟩
    by_cases hxy : key y ≤ key x
    · simp only [insertDesc, if_pos hxy]
      refine List.pairwise_cons.mpr ⟨?_, h⟩
      intro b hb
      rcases List.mem_cons.mp hb with rfl | hb
      · exact hxy
      · exact le_trans (hy b hb) hxy
    · simp only [insertDesc, if_neg hxy]
      refine List.pairwise_cons.mpr ⟨?_, pairwise_insertDesc key x hys⟩
      intro b hb
      rcases List.mem_cons.mp ((insertDesc_perm key x ys).mem_iff.mp hb) with rfl | hb
      · exact le_of_not_le hxy
      · exact hy b hb

theorem pairwise_sortByDesc {α : Type} (key : α → Nat) :
    ∀ l : List α, (sortByDesc key l).Pairwise (fun a b => key b ≤ key a)
  | [] => List.Pairwise.nil
  | x :: xs => by
    show (insertDesc key x (sortByDesc key xs)).Pairwise (fun a b => key b ≤ key a)
    exact pairwise_insertDesc key x (pairwise_sortByDesc key xs)

end CdsFeeder

namespace CdsFeeder

/-! ## `replaceFirst` and store-state lemmas -/

theorem replaceFirst_map_date (d : Nat) (r : Obs) (hr : r.date = d) :
    ∀ l : List Obs, (replaceFirst d r l).map Obs.date = l.map Obs.date
  | [] => rfl
  | x :: xs => by
    by_cases h : x.date = d
    · simp [replaceFirst, h, hr]
    · simp [replaceFirst, h, replaceFirst_map_date d r hr xs]

theorem mem_replaceFirst (d : Nat) (r : Obs) :
    ∀ {l : List Obs} {a : Obs}, a ∈ replaceFirst d r l → a = r ∨ a ∈ l := by
  intro l
  induction l with
  | nil => intro a ha; simp [replaceFirst] at ha
  | cons x xs ih =>
    intro a ha
    by_cases h : x.date = d
    · rw [replaceFirst, if_pos (by simpa using h)] at ha
      rcases List.mem_cons.mp ha with rfl | ha
      · exact Or.inl rfl
      · exact Or.inr (List.mem_cons_of_mem x ha)
    · rw [replaceFirst, if_neg (by simpa using h)] at ha
      rcases List.mem_cons.mp ha with rfl | ha
      · exact Or.inr (List.mem_cons_self a xs)
      · rcases ih ha with h1 | h1
        · exact Or.inl h1
        · exact Or.inr (List.mem_cons_of_mem x h1)

theorem find?_replaceFirst (d : Nat) (r : Obs) (hr : r.date = d) :
    ∀ {l : List Obs}, l.any (fun x => x.date == d) = true →
      (replaceFirst d r l).find? (fun x => x.date == d) = some r := by
  intro l
  induction l with
  | nil => intro h; simp at h
  | cons x xs ih =>
    intro h
    by_cases hx : x.date = d
    · rw [replaceFirst, if_pos (by simpa using hx)]
      simp [List.find?, hr]
    · have hxs : xs.any (fun x => x.date == d) = true := by
        rcases List.any_eq_true.mp h with ⟨y, hy, hyd⟩
        rcases List.mem_cons.mp hy with rfl | hy
        · exact absurd (by simpa using hyd) hx
        · exact List.any_eq_true.mpr ⟨y, hy, by simpa using hyd⟩
      rw [replaceFirst, if_neg (by simpa using hx)]
      rw [List.find?_cons_of_neg _ (by simpa using hx)]
      exact ih hxs

theorem find?_eq_none_of_any_eq_false {l : List Obs} {d : Nat}
    (h : l.any (fun x => x.date == d) = false) :
    l.find? (fun x => x.date == d) = none := by
  rw [List.find?_eq_none]
  intro x hx
  intro hxd
  have hh : l.any (fun x => x.date == d) = true :=
    List.any_eq_true.mpr ⟨x, hx, by simpa using hxd⟩
  rw [h] at hh
  exact Bool.false_ne_true hh

end CdsFeeder

namespace CdsFeeder

/-! ## Invariant preservation: the file-based adapter -/

theorem uniqueDates_csvUpsertMem {mem : List Obs} (r : Obs) (h : UniqueDates mem) :
    UniqueDates (csvUpsertMem mem r) := by
  unfold csvUpsertMem
  by_cases he : mem.isEmpty
  · simp [he, UniqueDates]
  · rw [if_neg he]
    by_cases ha : mem.any (fun x => x.date == r.date) = true
    · rw [if_pos ha]
      unfold UniqueDates
      rw [replaceFirst_map_date r.date r rfl mem]
      exact h
    · rw [if_neg ha]
      have hperm := (sortByDesc_perm (fun x => x.date) (mem ++ [r])).map Obs.date
      refine (hperm.nodup_iff).mpr ?_
      rw [List.map_append]
      simp only [List.map_cons, List.map_nil]
      rw [List.nodup_append]
      refine ⟨h, List.nodup_singleton _, ?_⟩
      intro a hamem hasing
      rcases List.mem_map.mp hamem with ⟨x, hx, rfl⟩
      have : x.date = r.date := by simpa using hasing
      exact (Bool.eq_false_iff.mp (Bool.not_eq_true _ ▸ ha))
        (List.any_eq_true.mpr ⟨x, hx, by simpa using this⟩)

theorem closesSome_csvUpsertMem {mem : List Obs} {r : Obs} (h : ClosesSome mem)
    (hr : r.close.isSome = true) : ClosesSome (csvUpsertMem mem r) := by
  unfold csvUpsertMem
  by_cases he : mem.isEmpty
  · simp only [if_pos he]
    intro x hx
    rcases List.mem_singleton.mp hx with rfl
    exact hr
  · rw [if_neg he]
    by_cases ha : mem.any (fun x => x.date == r.date) = true
    · rw [if_pos ha]
      intro x hx
      rcases mem_replaceFirst r.date r hx with rfl | hx
      · exact hr
      · exact h x hx
    · rw [if_neg ha]
      intro x hx
      rcases List.mem_append.mp ((mem_sortByDesc _ _ _).mp hx) with hx | hx
      · exact h x hx
      · rcases List.mem_singleton.mp hx with rfl
        exact hr

theorem csvUnique_upsertRecord (st : CsvState) (r : Obs) (h : CsvUnique st) :
    CsvUnique (csvUpsertRecord st r) := by
  have hmem : UniqueDates (csvUpsertMem st.mem r) := uniqueDates_csvUpsertMem r h.1
  refine ⟨hmem, ?_⟩
  intro f hf
  simp only [csvUpsertRecord, saveCsvFile] at hf
  by_cases he : (csvUpsertMem st.mem r).isEmpty
  · rw [if_pos he] at hf
    exact h.2 f hf
  · rw [if_neg he] at hf
    have hf2 : sortByDesc (fun x => x.date) (csvUpsertMem st.mem r) = f :=
      Option.some.inj hf
    rw [← hf2]
    unfold UniqueDates
    exact ((sortByDesc_perm (fun x => x.date) _).map Obs.date).nodup_iff.mpr hmem

theorem csvCloses_upsertRecord (st : CsvState) (r : Obs) (h : CsvCloses st)
    (hr : r.close.isSome = true) : CsvCloses (csvUpsertRecord st r) := by
  have hmem : ClosesSome (csvUpsertMem st.mem r) := closesSome_csvUpsertMem h.1 hr
  refine ⟨hmem, ?_⟩
  intro f hf
  simp only [csvUpsertRecord, saveCsvFile] at hf
  by_cases he : (csvUpsertMem st.mem r).isEmpty
  · rw [if_pos he] at hf
    exact h.2 f hf
  · rw [if_neg he] at hf
    have hf2 : sortByDesc (fun x => x.date) (csvUpsertMem st.mem r) = f :=
      Option.some.inj hf
    rw [← hf2]
    intro x hx
    exact hmem x ((mem_sortByDesc _ _ _).mp hx)

theorem csvUnique_bulkStep (skip : Bool) (acc : CsvState × Counts) (r : Obs)
    (h : CsvUnique acc.1) : CsvUnique (csvBulkStep skip acc r).1 := by
  unfold csvBulkStep
  cases hfind : csvGetByDate acc.1 r.date with
  | none => exact csvUnique_upsertRecord acc.1 r h
  | some x =>
    by_cases hskip : skip = true
    · simp only [hskip, if_pos rfl]
      exact h
    · rw [Bool.not_eq_true] at hskip
      simp only [hskip]
      exact csvUnique_upsertRecord acc.1 r h

theorem csvCloses_bulkStep (skip : Bool) (acc : CsvState × Counts) (r : Obs)
    (h : CsvCloses acc.1) (hr : r.close.isSome = true) :
    CsvCloses (csvBulkStep skip acc r).1 := by
  unfold csvBulkStep
  cases hfind : csvGetByDate acc.1 r.date with
  | none => exact csvCloses_upsertRecord acc.1 r h hr
  | some x =>
    by_cases hskip : skip = true
    · simp only [hskip, if_pos rfl]
      exact h
    · rw [Bool.not_eq_true] at hskip
      simp only [hskip]
      exact csvCloses_upsertRecord acc.1 r h hr

theorem csvUnique_bulkFold (skip : Bool) :
    ∀ (recs : List Obs) (acc : CsvState × Counts), CsvUnique acc.1 →
      CsvUnique (recs.foldl (csvBulkStep skip) acc).1
  | [], _, h => h
  | r :: rs, acc, h => by
    rw [List.foldl_cons]
    exact csvUnique_bulkFold skip rs _ (csvUnique_bulkStep skip acc r h)

theorem csvCloses_bulkFold (skip : Bool) :
    ∀ (recs : List Obs) (acc : CsvState × Counts), CsvCloses acc.1 →
      (∀ r ∈ recs, r.close.isSome = true) →
      CsvCloses (recs.foldl (csvBulkStep skip) acc).1
  | [], _, h, _ => h
  | r :: rs, acc, h, hrec => by
    rw [List.foldl_cons]
    exact csvCloses_bulkFold skip rs _
      (csvCloses_bulkStep skip acc r h (hrec r (List.mem_cons_self r rs)))
      (fun x hx => hrec x (List.mem_cons_of_mem r hx))

theorem csvUnique_deleteByDateRange (st : CsvState) (s e : Nat) (h : CsvUnique st) :
    CsvUnique (csvDeleteByDateRange st s e).1 := by
  unfold csvDeleteByDateRange
  by_cases he : st.mem.isEmpty
  · rw [if_pos he]
    exact h
  · rw [if_neg he]
    have hkept : UniqueDates (st.mem.filter (fun r => r.date < s || e < r.date)) :=
      List.Nodup.sublist ((List.filter_sublist st.mem).map Obs.date) h.1
    by_cases hd : 0 < st.mem.length -
        (st.mem.filter (fun r => r.date < s || e < r.date)).length
    · rw [if_pos hd]
      refine ⟨hkept, ?_⟩
      intro f hf
      unfold saveCsvFile at hf
      by_cases hke : (st.mem.filter (fun r => r.date < s || e < r.date)).isEmpty
      · rw [if_pos hke] at hf
        exact h.2 f hf
      · rw [if_neg hke] at hf
        have hf2 := Option.some.inj hf
        rw [← hf2]
        exact ((sortByDesc_perm (fun x => x.date) _).map Obs.date).nodup_iff.mpr hkept
    · rw [if_neg hd]
      exact ⟨hkept, h.2⟩

theorem csvCloses_deleteByDateRange (st : CsvState) (s e : Nat) (h : CsvCloses st) :
    CsvCloses (csvDeleteByDateRange st s e).1 := by
  unfold csvDeleteByDateRange
  by_cases he : st.mem.isEmpty
  · rw [if_pos he]
    exact h
  · rw [if_neg he]
    have hkept : ClosesSome (st.mem.filter (fun r => r.date < s || e < r.date)) := by
      intro x hx
      exact h.1 x (List.mem_of_mem_filter hx)
    by_cases hd : 0 < st.mem.length -
        (st.mem.filter (fun r => r.date < s || e < r.date)).length
    · rw [if_pos hd]
      refine ⟨hkept, ?_⟩
      intro f hf
      unfold saveCsvFile at hf
      by_cases hke : (st.mem.filter (fun r => r.date < s || e < r.date)).isEmpty
      · rw [if_pos hke] at hf
        exact h.2 f hf
      · rw [if_neg hke] at hf
        have hf2 := Option.some.inj hf
        rw [← hf2]
        intro x hx
        exact hkept x ((mem_sortByDesc _ _ _).mp hx)
    · rw [if_neg hd]
      exact ⟨hkept, h.2⟩

end CdsFeeder

namespace CdsFeeder

/-! ## Invariant preservation: the relational adapter -/

theorem pgUpsert_ok_inv {db : List Obs} {r : Obs} {db2 : List Obs}
    (h : UniqueDates db) (hok : pgUpsert db r = DbResult.ok db2) :
    UniqueDates db2 ∧ (ClosesSome db → ClosesSome db2) := by
  unfold pgUpsert at hok
  by_cases hn : r.close.isNone = true
  · rw [if_pos hn] at hok
    exact absurd hok (by simp)
  · rw [if_neg hn] at hok
    have hrc : r.close.isSome = true := by
      cases hc : r.close with
      | none => rw [hc] at hn; simp at hn
      | some v => rfl
    by_cases ha : db.any (fun x => x.date == r.date) = true
    · rw [if_pos ha] at hok
      have hdb2 := DbResult.ok.inj hok
      constructor
      · rw [← hdb2]
        unfold UniqueDates
        rw [replaceFirst_map_date r.date r rfl db]
        exact h
      · intro hcl x hx
        rw [← hdb2] at hx
        rcases mem_replaceFirst r.date r hx with rfl | hx
        · exact hrc
        · exact hcl x hx
    · rw [if_neg ha] at hok
      have hdb2 := DbResult.ok.inj hok
      constructor
      · rw [← hdb2]
        unfold UniqueDates
        rw [List.map_append]
        simp only [List.map_cons, List.map_nil]
        rw [List.nodup_append]
        refine ⟨h, List.nodup_singleton _, ?_⟩
        intro a hamem hasing
        rcases List.mem_map.mp hamem with ⟨x, hx, rfl⟩
        have hxr : x.date = r.date := by simpa using hasing
        exact (Bool.eq_false_iff.mp (Bool.not_eq_true _ ▸ ha))
          (List.any_eq_true.mpr ⟨x, hx, by simpa using hxr⟩)
      · intro hcl x hx
        rw [← hdb2] at hx
        rcases List.mem_append.mp hx with hx | hx
        · exact hcl x hx
        · rcases List.mem_singleton.mp hx with rfl
          exact hrc

theorem repoUpsertLoop_ok_inv :
    ∀ (recs : List Obs) (db : List Obs) (n : Nat) (db2 : List Obs) (m : Nat),
      UniqueDates db → repoUpsertLoop db n recs = DbResult.ok (db2, m) →
      UniqueDates db2 ∧ (ClosesSome db → ClosesSome db2)
  | [], db, n, db2, m, h, hok => by
    unfold repoUpsertLoop at hok
    have hinj := DbResult.ok.inj hok
    have hdb : db = db2 := congrArg Prod.fst hinj
    rw [← hdb]
    exact ⟨h, fun hc => hc⟩
  | r :: rs, db, n, db2, m, h, hok => by
    unfold repoUpsertLoop at hok
    cases hstep : pgUpsert db r with
    | err msg => rw [hstep] at hok; exact absurd hok (by simp)
    | ok dbm =>
      rw [hstep] at hok
      have hmid := pgUpsert_ok_inv h hstep
      have hrec := repoUpsertLoop_ok_inv rs dbm (n + 1) db2 m hmid.1 hok
      exact ⟨hrec.1, fun hc => hrec.2 (hmid.2 hc)⟩

theorem pgInsertDoNothing_ok_inv :
    ∀ (recs : List Obs) (db : List Obs) (db2 : List Obs) (m : Nat),
      UniqueDates db → pgInsertDoNothing db recs = DbResult.ok (db2, m) →
      UniqueDates db2 ∧ (ClosesSome db → ClosesSome db2)
  | [], db, db2, m, h, hok => by
    unfold pgInsertDoNothing at hok
    have hinj := DbResult.ok.inj hok
    have hdb : db = db2 := congrArg Prod.fst hinj
    rw [← hdb]
    exact ⟨h, fun hc => hc⟩
  | r :: rs, db, db2, m, h, hok => by
    unfold pgInsertDoNothing at hok
    by_cases ha : db.any (fun x => x.date == r.date) = true
    · rw [if_pos ha] at hok
      exact pgInsertDoNothing_ok_inv rs db db2 m h hok
    · rw [if_neg ha] at hok
      by_cases hn : r.close.isNone = true
      · rw [if_pos hn] at hok
        exact absurd hok (by simp)
      · rw [if_neg hn] at hok
        have hrc : r.close.isSome = true := by
          cases hc : r.close with
          | none => rw [hc] at hn; simp at hn
          | some v => rfl
        have happ : UniqueDates (db ++ [r]) := by
          unfold UniqueDates
          rw [List.map_append]
          simp only [List.map_cons, List.map_nil]
          rw [List.nodup_append]
          refine ⟨h, List.nodup_singleton _, ?_⟩
          intro a hamem hasing
          rcases List.mem_map.mp hamem with ⟨x, hx, rfl⟩
          have hxr : x.date = r.date := by simpa using hasing
          exact (Bool.eq_false_iff.mp (Bool.not_eq_true _ ▸ ha))
            (List.any_eq_true.mpr ⟨x, hx, by simpa using hxr⟩)
        cases hrest : pgInsertDoNothing (db ++ [r]) rs with
        | err msg =>
          rw [hrest] at hok
          exact absurd hok (by simp [DbResult.map])
        | ok p =>
          rw [hrest] at hok
          simp only [DbResult.map] at hok
          have hinj := DbResult.ok.inj hok
          have hdb2 : p.1 = db2 := congrArg Prod.fst hinj
          have hrec := pgInsertDoNothing_ok_inv rs (db ++ [r]) p.1 p.2 happ
            (by rw [hrest])
          rw [hdb2] at hrec
          refine ⟨hrec.1, fun hc => hrec.2 ?_⟩
          intro x hx
          rcases List.mem_append.mp hx with hx | hx
          · exact hc x hx
          · rcases List.mem_singleton.mp hx with rfl
            exact hrc

theorem repoBulkInsert_ok_inv {db recs : List Obs} {skip : Bool} {db2 : List Obs}
    {c : Counts} (h : UniqueDates db)
    (hok : repoBulkInsert db recs skip = DbResult.ok (db2, c)) :
    UniqueDates db2 ∧ (ClosesSome db → ClosesSome db2) := by
  unfold repoBulkInsert at hok
  by_cases he : recs.isEmpty
  · rw [if_pos he] at hok
    have hinj := DbResult.ok.inj hok
    have hdb : db = db2 := congrArg Prod.fst hinj
    rw [← hdb]
    exact ⟨h, fun hc => hc⟩
  · rw [if_neg he] at hok
    by_cases hs : skip = true
    · rw [if_pos hs] at hok
      cases hrest : pgInsertDoNothing db recs with
      | err msg => rw [hrest] at hok; exact absurd hok (by simp [DbResult.map])
      | ok p =>
        rw [hrest] at hok
        simp only [DbResult.map] at hok
        have hinj := DbResult.ok.inj hok
        have hdb2 : p.1 = db2 := congrArg Prod.fst hinj
        have hrec := pgInsertDoNothing_ok_inv recs db p.1 p.2 h (by rw [hrest])
        rw [hdb2] at hrec
        exact hrec
    · rw [if_neg hs] at hok
      cases hrest : repoUpsertLoop db 0 recs with
      | err msg => rw [hrest] at hok; exact absurd hok (by simp [DbResult.map])
      | ok p =>
        rw [hrest] at hok
        simp only [DbResult.map] at hok
        have hinj := DbResult.ok.inj hok
        have hdb2 : p.1 = db2 := congrArg Prod.fst hinj
        have hrec := repoUpsertLoop_ok_inv recs db 0 p.1 p.2 h (by rw [hrest])
        rw [hdb2] at hrec
        exact hrec

theorem repoDeleteByDateRange_inv (db : List Obs) (s e : Nat)
    (h : UniqueDates db) :
    UniqueDates (repoDeleteByDateRange db s e).1 ∧
      (ClosesSome db → ClosesSome (repoDeleteByDateRange db s e).1) := by
  unfold repoDeleteByDateRange
  constructor
  · exact List.Nodup.sublist ((List.filter_sublist db).map Obs.date) h
  · intro hc x hx
    exact hc x (List.mem_of_mem_filter hx)

end CdsFeeder

namespace CdsFeeder

/-! ## Normalizer and range-query lemmas -/

theorem normalizeRows_pairwise (t : RawTable) :
    (normalizeRows t).Pairwise (fun a b => normKey a ≤ normKey b) := by
  unfold normalizeRows
  exact pairwise_sortByAsc normKey _

theorem mem_normalizeRows {t : RawTable} {r : NormRow} (h : r ∈ normalizeRows t) :
    r.date.isSome = true ∧ (hasCloseCol t = true → r.close.isSome = true) := by
  unfold normalizeRows at h
  rw [mem_sortByAsc] at h
  by_cases hc : hasCloseCol t = true
  · rw [if_pos hc] at h
    have h1 := List.mem_filter.mp h
    have h2 := List.mem_filter.mp h1.1
    exact ⟨h2.2, fun _ => h1.2⟩
  · rw [if_neg hc] at h
    have h2 := List.mem_filter.mp h
    exact ⟨h2.2, fun hcc => absurd hcc hc⟩

theorem codeCandidate_readHtmlTable (t : RawTable) :
    codeCandidate (readHtmlTable t) = codeCandidate t := rfl

theorem repoGetDateRange_raises (db : List Obs) (s e : Option Nat) (orderBy : String) :
    repoGetDateRange db s e orderBy = DbResult.err attrErrorMsg := by
  unfold repoGetDateRange
  rw [show ormAttr "date" = DbResult.err attrErrorMsg from by decide]

theorem mem_csvGetDateRange (st : CsvState) (s e : Option Nat) (r : Obs) :
    (r ∈ csvGetDateRange st s e "asc" ↔ r ∈ st.mem ∧ boundsOk s e r.date = true)
    ∧ (r ∈ csvGetDateRange st s e "desc" ↔ r ∈ st.mem ∧ boundsOk s e r.date = true) := by
  unfold csvGetDateRange
  by_cases he : st.mem.isEmpty
  · have hnil : st.mem = [] := by simpa [List.isEmpty_iff] using he
    rw [if_pos he, if_pos he]
    simp [hnil]
  · rw [if_neg he, if_neg he]
    rw [if_pos (show ((⟨pyLowerL "asc".data⟩ : String) == "asc") = true from by decide)]
    rw [if_neg (show ¬((⟨pyLowerL "desc".data⟩ : String) == "asc") = true from by decide)]
    constructor
    · rw [mem_sortByAsc]
      exact List.mem_filter
    · rw [mem_sortByDesc]
      exact List.mem_filter

theorem sorted_csvGetDateRange (st : CsvState) (s e : Option Nat) :
    (csvGetDateRange st s e "asc").Pairwise (fun a b => a.date ≤ b.date)
    ∧ (csvGetDateRange st s e "desc").Pairwise (fun a b => b.date ≤ a.date) := by
  unfold csvGetDateRange
  by_cases he : st.mem.isEmpty
  · rw [if_pos he, if_pos he]
    exact ⟨List.Pairwise.nil, List.Pairwise.nil⟩
  · rw [if_neg he, if_neg he]
    rw [if_pos (show ((⟨pyLowerL "asc".data⟩ : String) == "asc") = true from by decide)]
    rw [if_neg (show ¬((⟨pyLowerL "desc".data⟩ : String) == "asc") = true from by decide)]
    exact ⟨pairwise_sortByAsc _ _, pairwise_sortByDesc _ _⟩

end CdsFeeder

namespace CdsFeeder

/-! ## Claim theorems -/

/-- C4: numeric normalization. The OHLC cleaner maps `"1.234,56"` to
`12.3456` (periods removed, decimal comma to point, percent stripped, divided
by 100); the change_pct parser maps `"+1,56%"` to `1.56` and `"-0,32%"` to
`-0.32` (sign preserved, no division by 100); and an input whose cleaned form
neither `float`-parses nor (for change_pct) contains a numeric substring
yields `none` rather than an error. -/
theorem c4_numeric_normalization :
    cleanNumber "1.234,56" = some (mkRat 123456 10000)
    ∧ parseChangePct "+1,56%" = some (mkRat 156 100)
    ∧ parseChangePct "-0,32%" = some (-(mkRat 32 100))
    ∧ (∀ s : String, pyFloatL (cleanTransform s) = none → cleanNumber s = none)
    ∧ (∀ s : String, pyFloatL (pctTransform s) = none →
        searchNum (pctTransform s) = none → parseChangePct s = none) := by
  refine ⟨by decide, by decide, by decide, ?_, ?_⟩
  · intro s h
    unfold cleanNumber
    simp only [h, ite_self]
  · intro s h1 h2
    unfold parseChangePct
    rw [h1, h2]

/-- Witness for C4: a string failing both parse paths comes out as `none`. -/
theorem c4_numeric_normalization_witness :
    (pyFloatL (cleanTransform "abc") = none ∧ cleanNumber "abc" = none)
    ∧ (pyFloatL (pctTransform "n/a") = none ∧ searchNum (pctTransform "n/a") = none
        ∧ parseChangePct "n/a" = none) :=
  ⟨⟨by decide, c4_numeric_normalization.2.2.2.1 "abc" (by decide)⟩,
   ⟨by decide, by decide,
    c4_numeric_normalization.2.2.2.2 "n/a" (by decide) (by decide)⟩⟩

/-- C1: reconciliation idempotence, evaluated on a one-record batch from the
empty store. The file-based adapter is idempotent and its second run reports
`updated = 1, inserted = 0` as the claim states; the relational adapter
reaches the same (idempotent) final store state, but its second run reports
`inserted = 1, updated = 0` — `bulk_insert` counts every executed upsert as
an insert (cds_repository.py:193-196), contradicting the claim for the
relational adapter. -/
theorem c1_reconcile_second_run_counts :
    csvBulkInsert ⟨[], none⟩ [recA] false = (⟨[recA], some [recA]⟩, ⟨1, 0, 0⟩)
    ∧ csvBulkInsert ⟨[recA], some [recA]⟩ [recA] false =
        (⟨[recA], some [recA]⟩, ⟨0, 1, 0⟩)
    ∧ repoBulkInsert [] [recA] false = DbResult.ok ([recA], ⟨1, 0, 0⟩)
    ∧ repoBulkInsert [recA] [recA] false = DbResult.ok ([recA], ⟨1, 0, 0⟩) := by
  decide

/-- C2 counterexample: a file-based (CSV) run with a successful fetch writes
zero RunLog entries; a run whose fetch fails writes zero; and a database run
failing after the success log has committed (for example `get_statistics`
raising) writes two — none of which is the claimed exactly one. -/
theorem c2_counterexample :
    (asyncMainRunLogs false (FetchResult.ok [recA]) ⟨1, 0, 0⟩
      DbStorageOutcome.noFailure true).length = 0
    ∧ (asyncMainRunLogs true (FetchResult.fail "fetch failed") ⟨0, 0, 0⟩
      DbStorageOutcome.noFailure true).length = 0
    ∧ (asyncMainRunLogs true (FetchResult.ok [recA]) ⟨1, 0, 0⟩
      (DbStorageOutcome.failAfterSuccessLog "stats failed") true).length = 2 := by
  decide

/-- C2 amended: only database-mode runs whose fetch succeeds write RunLog
entries, and not always exactly one. A fully successful storage phase writes
exactly one `success` entry; a failure before the success log commits writes
at most one best-effort `error` entry (none when the error-log write itself
fails); a failure after the success log commits (e.g. `get_statistics`
raising at update_cds_investing.py:421) leaves the committed `success` entry
and appends an `error` entry, two in total; fetch-failed runs and file-based
(CSV) runs write none. -/
theorem c2_amended_runlogs (rows : List Obs) (c : Counts) (m em : String)
    (o : DbStorageOutcome) (eOk : Bool) :
    asyncMainRunLogs true (.ok rows) c DbStorageOutcome.noFailure eOk =
      [⟨"success", rows.length, c.inserted, c.updated, none, "investing.com", "manual"⟩]
    ∧ asyncMainRunLogs true (.ok rows) c (DbStorageOutcome.failBeforeSuccessLog em) true =
      [⟨"error", rows.length, 0, 0, some em, "investing.com", "manual"⟩]
    ∧ asyncMainRunLogs true (.ok rows) c (DbStorageOutcome.failBeforeSuccessLog em) false = []
    ∧ asyncMainRunLogs true (.ok rows) c (DbStorageOutcome.failAfterSuccessLog em) true =
      [⟨"success", rows.length, c.inserted, c.updated, none, "investing.com", "manual"⟩,
       ⟨"error", rows.length, 0, 0, some em, "investing.com", "manual"⟩]
    ∧ asyncMainRunLogs true (.ok rows) c (DbStorageOutcome.failAfterSuccessLog em) false =
      [⟨"success", rows.length, c.inserted, c.updated, none, "investing.com", "manual"⟩]
    ∧ asyncMainRunLogs true (.fail m) c o eOk = []
    ∧ asyncMainRunLogs false (.ok rows) c o eOk = []
    ∧ asyncMainRunLogs false (.fail m) c o eOk = [] :=
  ⟨rfl, rfl, rfl, rfl, rfl, rfl, rfl, rfl⟩

/-- C10: when `delete_by_date_range` removes every record from the file-based
store, `_save_csv` returns without writing (the frame is empty), so the
on-disk file is unchanged while the in-memory frame, `count_records` and
`get_statistics` all report zero; the return value still counts the deleted
rows. -/
theorem c10_delete_all_leaves_file (st : CsvState) (s e : Nat)
    (hne : st.mem ≠ []) (hall : ∀ r ∈ st.mem, s ≤ r.date ∧ r.date ≤ e) :
    (csvDeleteByDateRange st s e).1.file = st.file
    ∧ (csvDeleteByDateRange st s e).1.mem = []
    ∧ csvCountRecords (csvDeleteByDateRange st s e).1 = 0
    ∧ (csvGetStatistics (csvDeleteByDateRange st s e).1).total_records = 0
    ∧ (csvDeleteByDateRange st s e).2 = st.mem.length := by
  have hkept : st.mem.filter (fun r => r.date < s || e < r.date) = [] := by
    rw [List.filter_eq_nil_iff]
    intro a ha
    have h2 := hall a ha
    simp only [Bool.or_eq_true, decide_eq_true_eq, not_or]
    omega
  have he : ¬st.mem.isEmpty = true := by
    simpa [List.isEmpty_iff] using hne
  unfold csvDeleteByDateRange
  simp only [hkept]
  rw [if_neg he]
  have hd : 0 < st.mem.length - ([] : List Obs).length := by
    simp only [List.length_nil, Nat.sub_zero]
    exact List.length_pos.mpr hne
  rw [if_pos hd]
  refine ⟨rfl, rfl, rfl, rfl, ?_⟩
  simp

/-- Witness for C10 on a two-record store deleted in full. -/
theorem c10_delete_all_leaves_file_witness :
    (csvDeleteByDateRange ⟨[recA, recB], some [recA, recB]⟩ 20250101 20260101).1.file =
      some [recA, recB]
    ∧ (csvDeleteByDateRange ⟨[recA, recB], some [recA, recB]⟩ 20250101 20260101).1.mem = []
    ∧ csvCountRecords
        (csvDeleteByDateRange ⟨[recA, recB], some [recA, recB]⟩ 20250101 20260101).1 = 0
    ∧ (csvGetStatistics
        (csvDeleteByDateRange ⟨[recA, recB], some [recA, recB]⟩ 20250101 20260101).1).total_records = 0
    ∧ (csvDeleteByDateRange ⟨[recA, recB], some [recA, recB]⟩ 20250101 20260101).2 = 2 :=
  c10_delete_all_leaves_file ⟨[recA, recB], some [recA, recB]⟩ 20250101 20260101
    (by decide) (by decide)

end CdsFeeder

namespace CdsFeeder

/-- C3: for an existing Observation at date `d` and an incoming row with the
same date and a different close value, reconciling in update_duplicates mode
(`skip_duplicates=False`) makes `get_by_date(d)` return the incoming close in
both adapters; the relational call also reports its (insert-counted) result. -/
theorem c3_update_overwrites_close (st : CsvState) (db : List Obs) (d : Nat)
    (oldC oldD rec : Obs)
    (hcsv : csvGetByDate st d = some oldC)
    (hdb : repoGetByDate db d = some oldD)
    (hdate : rec.date = d)
    (hsome : rec.close.isSome = true)
    (_hdiffC : oldC.close ≠ rec.close)
    (_hdiffD : oldD.close ≠ rec.close) :
    (csvGetByDate (csvBulkInsert st [rec] false).1 d).map Obs.close = some rec.close
    ∧ ∃ db2, repoBulkInsert db [rec] false = DbResult.ok (db2, ⟨1, 0, 0⟩)
        ∧ (repoGetByDate db2 d).map Obs.close = some rec.close := by
  have hfindC : st.mem.find? (fun x => x.date == d) = some oldC := hcsv
  have hfindD : db.find? (fun x => x.date == d) = some oldD := hdb
  have hmemC : oldC ∈ st.mem := List.mem_of_find?_eq_some hfindC
  have hpredC := List.find?_some hfindC
  have hanyC : st.mem.any (fun x => x.date == d) = true :=
    List.any_eq_true.mpr ⟨oldC, hmemC, hpredC⟩
  have hmemD : oldD ∈ db := List.mem_of_find?_eq_some hfindD
  have hpredD := List.find?_some hfindD
  have hanyD : db.any (fun x => x.date == d) = true :=
    List.any_eq_true.mpr ⟨oldD, hmemD, hpredD⟩
  have hne : ¬st.mem.isEmpty = true := by
    intro hh
    rw [List.isEmpty_iff.mp hh] at hmemC
    exact absurd hmemC (List.not_mem_nil oldC)
  constructor
  · have hstep : csvBulkInsert st [rec] false =
        (csvUpsertRecord st rec, ⟨0, 1, 0⟩) := by
      show csvBulkStep false (st, ⟨0, 0, 0⟩) rec = _
      unfold csvBulkStep
      unfold csvGetByDate
      rw [hdate]
      rw [show st.mem.find? (fun x => x.date == d) = some oldC from hcsv]
      rfl
    rw [hstep]
    show ((csvUpsertMem st.mem rec).find? (fun x => x.date == d)).map Obs.close = _
    unfold csvUpsertMem
    rw [if_neg hne, if_pos (by rw [hdate]; exact hanyC), hdate]
    rw [find?_replaceFirst d rec hdate hanyC]
    rfl
  · have hnn : rec.close.isNone = false := by
      cases hc : rec.close with
      | none => rw [hc] at hsome; simp at hsome
      | some v => rfl
    have hpg : pgUpsert db rec = DbResult.ok (replaceFirst d rec db) := by
      unfold pgUpsert
      rw [hnn, hdate]
      simp only [Bool.false_eq_true, if_false]
      rw [if_pos hanyD]
    refine ⟨replaceFirst d rec db, ?_, ?_⟩
    · show (repoUpsertLoop db 0 [rec]).map (fun p => (p.1, (⟨p.2, 0, 0⟩ : Counts))) =
        DbResult.ok (replaceFirst d rec db, ⟨1, 0, 0⟩)
      unfold repoUpsertLoop
      rw [hpg]
      rfl
    · unfold repoGetByDate
      rw [find?_replaceFirst d rec hdate hanyD]
      rfl

/-- Witness for C3: a stored close `12.3456` at 2025-11-19 is overwritten by
an incoming `12.39` in both adapters. -/
theorem c3_update_overwrites_close_witness :
    (csvGetByDate (csvBulkInsert ⟨[recA], some [recA]⟩ [recA2] false).1 20251119).map
        Obs.close = some recA2.close
    ∧ ∃ db2, repoBulkInsert [recA] [recA2] false = DbResult.ok (db2, ⟨1, 0, 0⟩)
        ∧ (repoGetByDate db2 20251119).map Obs.close = some recA2.close :=
  c3_update_overwrites_close ⟨[recA], some [recA]⟩ [recA] 20251119 recA recA recA2
    (by decide) (by decide) (by decide) (by decide) (by decide) (by decide)

/-- C5: whatever table the normalizer accepts, its output is sorted ascending
by parsed date, every surviving row has a parsed date, and — when a close
column was mapped — every surviving row has a parsed close. -/
theorem c5_normalize_sorted_and_filtered (t : RawTable) (out : List NormRow)
    (h : normalizeTable t = some out) :
    out.Pairwise (fun a b => normKey a ≤ normKey b)
    ∧ (∀ r ∈ out, r.date.isSome = true)
    ∧ (hasCloseCol t = true → ∀ r ∈ out, r.close.isSome = true) := by
  have hout : out = normalizeRows t := by
    unfold normalizeTable at h
    by_cases h1 : dupMappedCols t = true
    · rw [if_pos h1] at h
      exact absurd h (by simp)
    · rw [if_neg h1] at h
      by_cases h2 : (!hasDateCol t) = true
      · rw [if_pos h2] at h
        exact absurd h (by simp)
      · rw [if_neg h2] at h
        exact (Option.some.inj h).symm
  subst hout
  refine ⟨normalizeRows_pairwise t, ?_, ?_⟩
  · intro r hr
    exact (mem_normalizeRows hr).1
  · intro hc r hr
    exact (mem_normalizeRows hr).2 hc

/-- Witness for C5 on the concrete pt-BR table. -/
theorem c5_normalize_sorted_and_filtered_witness :
    normalizeTable tblPT = some rowsPT
    ∧ (rowsPT.Pairwise (fun a b => normKey a ≤ normKey b)
        ∧ (∀ r ∈ rowsPT, r.date.isSome = true)
        ∧ (hasCloseCol tblPT = true → ∀ r ∈ rowsPT, r.close.isSome = true)) :=
  ⟨by decide, c5_normalize_sorted_and_filtered tblPT rowsPT (by decide)⟩

/-- C6: the relational adapter's `get_date_range` never succeeds — it reads
the nonexistent ORM attribute `CDSRecord.date` (the attribute is
`record_date`) and raises `AttributeError` on every call — while the
file-based adapter does satisfy the shared contract: its result contains
exactly the in-range records, sorted ascending for `"asc"` and descending
for `"desc"`. -/
theorem c6_get_date_range_contract :
    (∀ (db : List Obs) (s e : Option Nat) (orderBy : String),
        repoGetDateRange db s e orderBy = DbResult.err attrErrorMsg)
    ∧ (∀ (st : CsvState) (s e : Option Nat) (r : Obs),
        (r ∈ csvGetDateRange st s e "asc" ↔ r ∈ st.mem ∧ boundsOk s e r.date = true)
        ∧ (r ∈ csvGetDateRange st s e "desc" ↔ r ∈ st.mem ∧ boundsOk s e r.date = true))
    ∧ (∀ (st : CsvState) (s e : Option Nat),
        (csvGetDateRange st s e "asc").Pairwise (fun a b => a.date ≤ b.date)
        ∧ (csvGetDateRange st s e "desc").Pairwise (fun a b => b.date ≤ a.date)) :=
  ⟨repoGetDateRange_raises, mem_csvGetDateRange, sorted_csvGetDateRange⟩

end CdsFeeder

namespace CdsFeeder

/-- C7 counterexample: the table headed `Date` / `Price` satisfies the
claim's selection predicate (and even the normalizer's own column mapping),
yet `parse_table_with_read_html` returns no result — the selection filter
matches only `"data"` and `"último"/"ultimo"/"close"`. -/
theorem c7_counterexample :
    claimedCandidate tblDP = true
    ∧ hasDateCol tblDP = true
    ∧ hasCloseCol tblDP = true
    ∧ parseTableWithReadHtml [tblDP] = ReadHtmlResult.noTable := by
  decide

/-- C7 amended: the primary strategy selects the first table whose lowered
headers contain `"data"` (date side) and one of `"último"/"ultimo"/"close"`
(close side) — English `"date"` and `"price"` are not selection terms — and
returns no result when no table matches. -/
theorem c7_amended_first_match (pre post : List RawTable) (t : RawTable)
    (hpre : ∀ u ∈ pre, codeCandidate u = false) (ht : codeCandidate t = true) :
    parseTableWithReadHtml (pre ++ t :: post) =
      (match normalizeTable (readHtmlTable t) with
       | none => ReadHtmlResult.raised
       | some rows => ReadHtmlResult.table rows)
    ∧ ∀ doc : List RawTable, (∀ u ∈ doc, codeCandidate u = false) →
        parseTableWithReadHtml doc = ReadHtmlResult.noTable := by
  constructor
  · unfold parseTableWithReadHtml
    rw [List.map_append, List.map_cons, List.filter_append]
    rw [List.filter_eq_nil_iff.mpr ?hpre2]
    case hpre2 =>
      intro v hv
      rcases List.mem_map.mp hv with ⟨u, hu, rfl⟩
      simp [codeCandidate_readHtmlTable, hpre u hu]
    rw [List.filter_cons_of_pos (by rw [codeCandidate_readHtmlTable]; exact ht)]
    rfl
  · intro doc hdoc
    unfold parseTableWithReadHtml
    rw [List.filter_eq_nil_iff.mpr ?hdoc2]
    case hdoc2 =>
      intro v hv
      rcases List.mem_map.mp hv with ⟨u, hu, rfl⟩
      simp [codeCandidate_readHtmlTable, hdoc u hu]

/-- Witness for the amended C7: with a non-candidate first table, the second
(pt-BR) table is selected, coerced and normalized; a document of
non-candidates yields no result. -/
theorem c7_amended_first_match_witness :
    parseTableWithReadHtml [tblDP, tblPT] = ReadHtmlResult.table rowsPTParsed
    ∧ parseTableWithReadHtml [tblDP] = ReadHtmlResult.noTable := by
  have h := c7_amended_first_match [tblDP] [] tblPT (by decide) (by decide)
  refine ⟨?_, h.2 [tblDP] (by decide)⟩
  have h1 := h.1
  rw [show normalizeTable (readHtmlTable tblPT) = some rowsPTParsed from by decide] at h1
  exact h1

/-- C8 counterexample, two independent failures of cross-strategy
consistency. First, numeric coercion: on a table whose close cell is
`"376,25"`, sitting both in the parsed table list and at the structural
path, the generic parser turns the cell into the integer `37625` before
normalization (close `376.25`), while the fallback strategy cleans the raw
string (close `3.7625`) — the two row sets differ. Second, location: with
the table absent from the structural path the fallback returns nothing at
all while the primary strategy returns its rows. -/
theorem c8_counterexample :
    parseTableWithReadHtml [tblBR] =
      ReadHtmlResult.table [⟨some 20251119, none, none, none, some (mkRat 37625 100), none⟩]
    ∧ parseTableWithXpath ⟨[tblBR], some tblBR⟩ =
      some [⟨some 20251119, none, none, none, some (mkRat 37625 10000), none⟩]
    ∧ (mkRat 37625 100 : ℚ) ≠ mkRat 37625 10000
    ∧ parseTableWithXpath ⟨[tblBR], none⟩ = none := by
  decide

/-- C8 amended: the two strategies return the same non-empty row set only
when the fixed structural path locates the very table the primary strategy
selects, that table is clean (stripped texts, no empty row, consistent
widths, normalizes to at least one row), and its cells are untouched by the
generic parser's numeric coercion (`readHtmlTable` fixes it) — pt-BR
decimal-comma cells violate the last condition and make the strategies
disagree. -/
theorem c8_amended_cross_strategy (doc : HtmlDocument) (t : RawTable)
    (rest : List RawTable) (out : List NormRow)
    (hsel : doc.tables.filter codeCandidate = t :: rest)
    (hconv : readHtmlTable t = t)
    (hx : doc.xpathTable = some t)
    (hnorm : normalizeTable t = some out)
    (hne : out ≠ [])
    (hH : t.headers.map (fun h2 => (⟨stripL h2.data⟩ : String)) = t.headers)
    (hR : t.rows.map (fun r => r.map (fun c => (⟨stripL c.data⟩ : String))) = t.rows)
    (hnoEmptyRow : ∀ r ∈ t.rows, r.isEmpty = false)
    (hHne : t.headers.isEmpty = false)
    (hRne : t.rows.isEmpty = false)
    (hwidth : ∀ r ∈ t.rows, r.length = t.headers.length) :
    parseTableWithReadHtml doc.tables = ReadHtmlResult.table out
    ∧ parseTableWithXpath doc = some out
    ∧ out ≠ [] := by
  refine ⟨?_, ?_, hne⟩
  · unfold parseTableWithReadHtml
    rw [List.filter_map]
    rw [show (codeCandidate ∘ readHtmlTable) = codeCandidate from
      funext codeCandidate_readHtmlTable]
    rw [hsel, List.map_cons, hconv]
    show (match normalizeTable t with
          | none => ReadHtmlResult.raised
          | some rows => ReadHtmlResult.table rows) = ReadHtmlResult.table out
    rw [hnorm]
  · unfold parseTableWithXpath
    rw [hx]
    simp only [hH, hR]
    rw [List.filter_eq_self.mpr (by intro r hr; simp [hnoEmptyRow r hr])]
    rw [hHne, hRne]
    simp only [Bool.or_self, Bool.false_eq_true, if_false]
    rw [if_neg ?hw]
    case hw =>
      intro hany
      rcases List.any_eq_true.mp hany with ⟨r, hr, hbad⟩
      rw [hwidth r hr] at hbad
      simp at hbad
    exact hnorm

/-- Witness for the amended C8: a table with dot-decimal cells — a fixed
point of the parser's coercion — sits both in the parsed list and at the
structural path; both strategies return its two rows. -/
theorem c8_amended_cross_strategy_witness :
    parseTableWithReadHtml (HtmlDocument.mk [tblUS] (some tblUS)).tables =
      ReadHtmlResult.table rowsUS
    ∧ parseTableWithXpath ⟨[tblUS], some tblUS⟩ = some rowsUS
    ∧ rowsUS ≠ [] :=
  c8_amended_cross_strategy ⟨[tblUS], some tblUS⟩ tblUS [] rowsUS
    (by decide) (by decide) (by decide) (by decide) (by decide) (by decide)
    (by decide) (by decide) (by decide) (by decide) (by decide)

end CdsFeeder

namespace CdsFeeder

/-- C9 counterexample: `CSVDataSource.upsert_record` accepts a record whose
`close` is null (the `required_fields` check only tests key presence) and
persists it, so "every persisted Observation has a non-null close" is not
preserved by every store operation of the file-based adapter. -/
theorem c9_counterexample :
    (csvUpsertRecord ⟨[], none⟩ recNullClose).mem = [recNullClose]
    ∧ (csvUpsertRecord ⟨[], none⟩ recNullClose).file = some [recNullClose]
    ∧ recNullClose.close.isSome = false := by
  decide

/-- C9 amended: every store operation of both adapters preserves
at-most-one-Observation-per-date; the relational adapter's NOT NULL schema
rejects null closes outright, so its operations also preserve non-null
`close`; the file-based adapter preserves non-null `close` only under the
proviso that every incoming record carries a close value (it does not enforce
this itself). -/
theorem c9_store_invariants :
    (∀ (st : CsvState) (r : Obs), CsvUnique st → CsvUnique (csvUpsertRecord st r))
    ∧ (∀ (st : CsvState) (r : Obs), CsvCloses st → r.close.isSome = true →
        CsvCloses (csvUpsertRecord st r))
    ∧ (∀ (st : CsvState) (recs : List Obs) (skip : Bool), CsvUnique st →
        CsvUnique (csvBulkInsert st recs skip).1)
    ∧ (∀ (st : CsvState) (recs : List Obs) (skip : Bool), CsvCloses st →
        (∀ r ∈ recs, r.close.isSome = true) → CsvCloses (csvBulkInsert st recs skip).1)
    ∧ (∀ (st : CsvState) (s e : Nat), CsvUnique st →
        CsvUnique (csvDeleteByDateRange st s e).1)
    ∧ (∀ (st : CsvState) (s e : Nat), CsvCloses st →
        CsvCloses (csvDeleteByDateRange st s e).1)
    ∧ (∀ (db : List Obs) (r : Obs), r.close = none →
        pgUpsert db r = DbResult.err integrityErrMsg)
    ∧ (∀ (db : List Obs) (r : Obs) (db2 : List Obs), UniqueDates db →
        pgUpsert db r = DbResult.ok db2 →
        UniqueDates db2 ∧ (ClosesSome db → ClosesSome db2))
    ∧ (∀ (db recs : List Obs) (skip : Bool) (db2 : List Obs) (c : Counts),
        UniqueDates db → repoBulkInsert db recs skip = DbResult.ok (db2, c) →
        UniqueDates db2 ∧ (ClosesSome db → ClosesSome db2))
    ∧ (∀ (db : List Obs) (s e : Nat), UniqueDates db →
        UniqueDates (repoDeleteByDateRange db s e).1
        ∧ (ClosesSome db → ClosesSome (repoDeleteByDateRange db s e).1)) := by
  refine ⟨csvUnique_upsertRecord, csvCloses_upsertRecord, ?_, ?_, ?_, ?_, ?_, ?_, ?_, ?_⟩
  · intro st recs skip h
    exact csvUnique_bulkFold skip recs (st, ⟨0, 0, 0⟩) h
  · intro st recs skip h hrec
    exact csvCloses_bulkFold skip recs (st, ⟨0, 0, 0⟩) h hrec
  · exact csvUnique_deleteByDateRange
  · exact csvCloses_deleteByDateRange
  · intro db r h
    unfold pgUpsert
    rw [h]
    rfl
  · intro db r db2 h hok
    exact pgUpsert_ok_inv h hok
  · intro db recs skip db2 c h hok
    exact repoBulkInsert_ok_inv h hok
  · exact repoDeleteByDateRange_inv

/-- Witness for the amended C9: upserting a dated, closed record into a
one-record store keeps the per-date uniqueness invariant. -/
theorem c9_store_invariants_witness :
    CsvUnique (csvUpsertRecord ⟨[recA], some [recA]⟩ recB) :=
  c9_store_invariants.1 ⟨[recA], some [recA]⟩ recB
    ⟨by unfold UniqueDates; decide,
     fun f hf => by rw [← Option.some.inj hf]; unfold UniqueDates; decide⟩

end CdsFeeder
